import Mathlib

/-!
# Verification of the geohashing comic generator

A shallow embedding of `geohashingcomic.py` (janlaan/geohashingcomic):
the coordinate derivation (seed string → MD5 digest → two fractional
offsets) and the glyph-placement renderers, with theorems checking the
specification's claims about them.

Conventions of the embedding:
- Python byte strings become `List Nat` with every entry below 256; the
  seed strings are pure ASCII, so UTF-8 bytes coincide with code points.
- Python floats are modelled as exact rationals (`ℚ`), the reading the
  spec itself fixes ("exact rational; implementations may use the nearest
  representable floating value").
- The network fetch inside `Geohashing.dowjones` is modelled by a field
  `fetch : Option ℚ` holding the response of the external index server
  (`none` stands for the 404 page).
-/

/-! ## 32-bit word arithmetic -/

/-- Truncate a natural number to a 32-bit word. -/
def w32 (n : Nat) : Nat := n % 4294967296

/-- Bitwise complement within 32 bits (the operand is first truncated). -/
def not32 (n : Nat) : Nat := 4294967295 - w32 n

/-- Left rotation of a 32-bit word by `s` places. -/
def rotl32 (x s : Nat) : Nat := w32 (x <<< s) ||| (w32 x >>> (32 - s))

/-! ## MD5 (RFC 1321), the digest used by `hashlib.md5` -/

/-- The 64 MD5 sine-table constants `T[1..64]` of RFC 1321. -/
def md5T : List Nat :=
  [0xd76aa478, 0xe8c7b756, 0x242070db, 0xc1bdceee,
   0xf57c0faf, 0x4787c62a, 0xa8304613, 0xfd469501,
   0x698098d8, 0x8b44f7af, 0xffff5bb1, 0x895cd7be,
   0x6b901122, 0xfd987193, 0xa679438e, 0x49b40821,
   0xf61e2562, 0xc040b340, 0x265e5a51, 0xe9b6c7aa,
   0xd62f105d, 0x02441453, 0xd8a1e681, 0xe7d3fbc8,
   0x21e1cde6, 0xc33707d6, 0xf4d50d87, 0x455a14ed,
   0xa9e3e905, 0xfcefa3f8, 0x676f02d9, 0x8d2a4c8a,
   0xfffa3942, 0x8771f681, 0x6d9d6122, 0xfde5380c,
   0xa4beea44, 0x4bdecfa9, 0xf6bb4b60, 0xbebfbc70,
   0x289b7ec6, 0xeaa127fa, 0xd4ef3085, 0x04881d05,
   0xd9d4d039, 0xe6db99e5, 0x1fa27cf8, 0xc4ac5665,
   0xf4292244, 0x432aff97, 0xab9423a7, 0xfc93a039,
   0x655b59c3, 0x8f0ccc92, 0xffeff47d, 0x85845dd1,
   0x6fa87e4f, 0xfe2ce6e0, 0xa3014314, 0x4e0811a1,
   0xf7537e82, 0xbd3af235, 0x2ad7d2bb, 0xeb86d391]

/-- The per-step left-rotation amounts of RFC 1321. -/
def md5S : List Nat :=
  [7, 12, 17, 22, 7, 12, 17, 22, 7, 12, 17, 22, 7, 12, 17, 22,
   5, 9, 14, 20, 5, 9, 14, 20, 5, 9, 14, 20, 5, 9, 14, 20,
   4, 11, 16, 23, 4, 11, 16, 23, 4, 11, 16, 23, 4, 11, 16, 23,
   6, 10, 15, 21, 6, 10, 15, 21, 6, 10, 15, 21, 6, 10, 15, 21]

/-- The round function of MD5: `F`, `G`, `H`, `I` selected by the step index. -/
def md5F (b c d i : Nat) : Nat :=
  if i < 16 then (b &&& c) ||| (not32 b &&& d)
  else if i < 32 then (d &&& b) ||| (not32 d &&& c)
  else if i < 48 then (b ^^^ c) ^^^ d
  else c ^^^ (b ||| not32 d)

/-- The message-word index accessed at step `i`. -/
def md5G (i : Nat) : Nat :=
  if i < 16 then i
  else if i < 32 then (5 * i + 1) % 16
  else if i < 48 then (3 * i + 5) % 16
  else (7 * i) % 16

/-- One of the 64 steps of an MD5 block computation. -/
def md5Step (M : List Nat) (st : Nat × Nat × Nat × Nat) (i : Nat) :
    Nat × Nat × Nat × Nat :=
  let t := w32 (st.1 + md5F st.2.1 st.2.2.1 st.2.2.2 i +
    md5T.getD i 0 + M.getD (md5G i) 0)
  (st.2.2.2, w32 (st.2.1 + rotl32 t (md5S.getD i 0)), st.2.1, st.2.2.1)

/-- Process one 16-word block, adding the result into the running state. -/
def md5Block (st : Nat × Nat × Nat × Nat) (M : List Nat) :
    Nat × Nat × Nat × Nat :=
  let r := (List.range 64).foldl (md5Step M) st
  (w32 (st.1 + r.1), w32 (st.2.1 + r.2.1),
   w32 (st.2.2.1 + r.2.2.1), w32 (st.2.2.2 + r.2.2.2))

/-- The `k` low-order bytes of `v`, little-endian. -/
def leBytes (k v : Nat) : List Nat :=
  (List.range k).map fun i => (v >>> (8 * i)) % 256

/-- Decode a 64-byte chunk into 16 little-endian 32-bit words. -/
def md5Words (chunk : List Nat) : List Nat :=
  (List.range 16).map fun j =>
    chunk.getD (4 * j) 0 + 256 * chunk.getD (4 * j + 1) 0 +
    65536 * chunk.getD (4 * j + 2) 0 + 16777216 * chunk.getD (4 * j + 3) 0

/-- MD5 padding: a `0x80` byte, zeros until the length is 56 mod 64,
then the bit length as a little-endian 64-bit value.  The zero count is
`56 - (len+1) mod 64`, taken modulo 64; it is computed with an added 64
(`120 - r` for `r ≤ 63`) so that the natural subtraction cannot
truncate. -/
def md5Pad (msg : List Nat) : List Nat :=
  msg ++ 128 :: List.replicate ((120 - (msg.length + 1) % 64) % 64) 0 ++
    leBytes 8 ((8 * msg.length) % 2 ^ 64)

/-- Split a byte list into 64-byte chunks (`fuel` bounds the recursion;
it is called with the length of the list). -/
def chunks64 : Nat → List Nat → List (List Nat)
  | 0, _ => []
  | _, [] => []
  | fuel + 1, l => l.take 64 :: chunks64 fuel (l.drop 64)

/-- The MD5 chaining value at the start of the computation. -/
def md5IV : Nat × Nat × Nat × Nat :=
  (0x67452301, 0xefcdab89, 0x98badcfe, 0x10325476)

/-- The 16-byte MD5 digest of a byte string, as in RFC 1321 /
`hashlib.md5(...).digest()`. -/
def md5 (msg : List Nat) : List Nat :=
  let p := md5Pad msg
  let st := (chunks64 p.length p).foldl (fun st ch => md5Block st (md5Words ch)) md5IV
  leBytes 4 st.1 ++ leBytes 4 st.2.1 ++ leBytes 4 st.2.2.1 ++ leBytes 4 st.2.2.2

/-! ## Hex digests and byte encodings -/

/-- The lowercase hexadecimal alphabet. -/
def hexChars : List Char := "0123456789abcdef".data

/-- The lowercase hexadecimal digit of a value below 16. -/
def hexDigit (n : Nat) : Char := hexChars.getD n '0'

/-- Lowercase hex encoding of a byte string, as `hexdigest()` produces. -/
def hexOfBytes (bs : List Nat) : String :=
  ⟨bs.flatMap fun b => [hexDigit (b / 16), hexDigit (b % 16)]⟩

/-- The bytes of an ASCII string (the UTF-8 encoding, for code points
below 128, is one byte per character). -/
def strBytes (s : String) : List Nat := s.data.map Char.toNat

/-- Big-endian value of a byte string: `struct.unpack(">Q", ...)` reads
8 bytes this way. -/
def beU64 (bs : List Nat) : Nat := bs.foldl (fun acc b => 256 * acc + b) 0

/-! ## Python number formatting

The format specifiers used by the program are `{:4d}`, `{:02d}`, `{:0.2f}`,
`{:8.2f}`, `{:+10.6f}` and `{:+11.6f}`.  Fixed-point rounding is modelled as
round-half-up on the magnitude; the Python floats being formatted are never
exact midpoints, so the tie rule is immaterial for the program's values. -/

/-- Left-pad a string to width `w` with `fill` (Python's default
right-aligned field). -/
def padLeft (w : Nat) (fill : Char) (s : String) : String :=
  ⟨List.replicate (w - s.length) fill⟩ ++ s

/-- Python `"{:wd}".format(n)`: decimal, right-aligned in a space-padded
field of width `w`. -/
def formatD (w : Nat) (n : Nat) : String := padLeft w ' ' (toString n)

/-- Python `"{:0wd}".format(n)`: decimal, zero-padded to width `w`. -/
def format0D (w : Nat) (n : Nat) : String := padLeft w '0' (toString n)

/-- `|q| * 10 ^ p` rounded to the nearest natural number (halves up),
computed from the reduced numerator and denominator. -/
def roundDecimals (p : Nat) (q : ℚ) : Nat :=
  (2 * q.num.natAbs * 10 ^ p + q.den) / (2 * q.den)

/-- Python `"{:0.pf}".format(q)`: fixed-point with `p` decimals, a sign
only when negative, no width padding (width 0). -/
def formatF (p : Nat) (q : ℚ) : String :=
  (if q < 0 then "-" else "") ++
    toString (roundDecimals p q / 10 ^ p) ++ "." ++
    format0D p (roundDecimals p q % 10 ^ p)

/-- Python `"{:+w.pf}".format(q)`: fixed-point with `p` decimals, an
explicit sign, space-padded to width `w`. -/
def formatPlusF (w p : Nat) (q : ℚ) : String :=
  padLeft w ' '
    ((if q < 0 then "-" else "+") ++
      toString (roundDecimals p q / 10 ^ p) ++ "." ++
      format0D p (roundDecimals p q % 10 ^ p))

/-! ## Python 2 `str()` of a float in `[0, 1)`

`draw_coordinate_decimals` calls `str(self.gh.lato)`.  Python 2's `str`
of a float prints `%.12g`: at most 12 significant digits, trailing zeros
stripped, scientific notation once more than four zeros follow the
decimal point.  The fraction is a nonnegative value below 1, so only
that regime is modelled. -/

/-- The smallest `m` with `a * 10 ^ m ≥ b` (for `a > 0`; `fuel ≥ b`
bounds the recursion). -/
def firstSig (b : Nat) : Nat → Nat → Nat
  | 0, _ => 0
  | fuel + 1, a => if b ≤ a then 0 else firstSig b fuel (a * 10) + 1

/-- Strip trailing decimal zeros from a positive number (`fuel` bounds
the recursion). -/
def stripZeros : Nat → Nat → Nat
  | 0, n => n
  | fuel + 1, n => if n % 10 == 0 && n != 0 then stripZeros fuel (n / 10) else n

/-- Scientific notation `d.ddde-0k` as `%.12g` prints it. -/
def sciString (ds : Nat) (e : Nat) : String :=
  let s := toString ds
  (if s.length ≤ 1 then s else s.take 1 ++ "." ++ s.drop 1) ++ "e-" ++ format0D 2 e

/-- Python 2 `str()` (= `%.12g`) of a float in `[0, 1)`, taken on the
exact rational value. -/
def pyStrFrac (q : ℚ) : String :=
  if q = 0 then "0.0" else
  let a := q.num.natAbs
  let b := q.den
  let k := firstSig b b a - 1
  let d := (2 * a * 10 ^ (k + 12) + b) / (2 * b)
  if d < 10 ^ 12 then
    let ds := stripZeros 12 d
    if k ≤ 3 then "0." ++ ⟨List.replicate k '0'⟩ ++ toString ds
    else sciString ds (k + 1)
  else
    if k = 0 then "1.0"
    else if k ≤ 4 then "0." ++ ⟨List.replicate (k - 1) '0'⟩ ++ "1"
    else sciString 1 k

/-! ## The `Geohashing` class -/

/-- A `datetime.date`: the constructor only accepts years 1..9999,
months 1..12 and valid days, recorded here as plain fields. -/
structure PyDate where
  year : Nat
  month : Nat
  day : Nat
deriving DecidableEq

/-- The state of a `Geohashing` object as built by `__init__`, together
with the response of the external index server.  `dowjones0` is the
`_dowjones` attribute as supplied to the constructor; `fetch` models the
body read from `irc.peeron.com` (`none` is the 404 page), so that the
lazily fetching `dowjones` property is a pure function of the object. -/
structure Geohashing where
  date : PyDate
  lat : ℚ
  lon : ℚ
  dowjones0 : ℚ
  fetch : Option ℚ
deriving DecidableEq

/-- The `dowjones` property: `if not self._dowjones:` fetch the index,
take `-1.0` on a 404, else return the stored value.  (`not x` on a float
is the test `x == 0.0`.) -/
def Geohashing.dowjones (g : Geohashing) : ℚ :=
  if g.dowjones0 = 0 then
    match g.fetch with
    | none => -1
    | some v => v
  else g.dowjones0

/-- The seed string of `__init__`:
`"{:4d}-{:02d}-{:02d}-{:0.2f}".format(year, month, day, dowjones)`. -/
def seedString (y m d : Nat) (dj : ℚ) : String :=
  formatD 4 y ++ "-" ++ format0D 2 m ++ "-" ++ format0D 2 d ++ "-" ++ formatF 2 dj

/-- The seed string hashed by `__init__` (it reads the `dowjones`
property, so a zero `_dowjones` goes through the fetch). -/
def Geohashing.inp (g : Geohashing) : String :=
  seedString g.date.year g.date.month g.date.day g.dowjones

/-- `hashlib.md5(inp).digest()`: the 16 raw digest bytes. -/
def Geohashing.digest (g : Geohashing) : List Nat := md5 (strBytes g.inp)

/-- `self.hexdig = mhash.hexdigest()`. -/
def Geohashing.hexdig (g : Geohashing) : String := hexOfBytes g.digest

/-- An 8-byte digest half read as a fraction:
`struct.unpack(">Q", half)[0] / (2. ** 64)`, the float quotient taken as
the exact rational. -/
def fracOfBytes (bs : List Nat) : ℚ := (beU64 bs : ℚ) / 2 ^ 64

/-- `self.lato`: the fraction of `digest[0:8]`. -/
def Geohashing.lato (g : Geohashing) : ℚ := fracOfBytes (g.digest.take 8)

/-- `self.lono`: the fraction of `digest[8:16]`. -/
def Geohashing.lono (g : Geohashing) : ℚ := fracOfBytes ((g.digest.drop 8).take 8)

/-! ## The glyph renderers

A paste is recorded as (character, x, y), the arguments of
`self.im.paste(self.digits[c], (x, y))`.  Each renderer walks the
formatted string with a running cursor `hofs`; the `checks_raw` lists
and their filtered sums are transcribed literally. -/

/-- `sum(change for check, change in checks_raw if check)`. -/
def pySum (checks : List (Bool × Int)) : Int :=
  ((checks.filter fun p => p.1).map fun p => p.2).foldl (fun a b => a + b) 0

/-- The `checks_raw` list of `draw_latitude` at position `i`, character `c`. -/
def latChecks (i : Nat) (c : Char) : List (Bool × Int) :=
  [(true, 10), (c == '1' && decide (i > 3), -5), (c == '.', 2),
   (c == '-', -1), (c == '+', -1), (c == ' ', -2)]

/-- The `checks_raw` list of `draw_longitude` at position `i`, character `c`. -/
def lonChecks (i : Nat) (c : Char) : List (Bool × Int) :=
  [(true, 10), (c == '1' && decide (i > 4), -5), (c == '.', 3),
   (c == '-', -1), (c == '+', -2), (c == ' ', -2)]

/-- The state threaded through a latitude/longitude rendering loop:
the pastes at the primary row, the pastes at the mirrored secondary
position, and the cursor. -/
structure Render where
  pastes : List (Char × Int × Int)
  mirror : List (Char × Int × Int)
  hofs : Int
deriving DecidableEq

/-- One iteration of the `draw_latitude` loop: paste at `(hofs, 168)`
unless the character is in `' +.'`, mirror the paste at
`(hofs + 110, 266)` when `i < 3`, then advance the cursor by the
filtered sum of `checks_raw`. -/
def latStep (r : Render) (ic : Nat × Char) : Render :=
  let i := ic.1
  let c := ic.2
  let r1 :=
    if c == ' ' || c == '+' || c == '.' then r
    else
      { r with
        pastes := r.pastes ++ [(c, r.hofs, 168)],
        mirror := if i < 3 then r.mirror ++ [(c, r.hofs + 110, 266)] else r.mirror }
  { r1 with hofs := r1.hofs + pySum (latChecks i c) }

/-- `draw_latitude` on an already formatted string, starting at cursor 25. -/
def drawLatitude (s : String) : Render :=
  s.data.enum.foldl latStep { pastes := [], mirror := [], hofs := 25 }

/-- One iteration of the `draw_longitude` loop: paste at `(hofs, 169)`
unless the character is in `' +.'`, mirror at `(hofs + 138, 269)` when
`i < 4`, then advance the cursor by `offset_change + offset_change2 -
offset_change3`, three identical filtered sums of `checks_raw`. -/
def lonStep (r : Render) (ic : Nat × Char) : Render :=
  let i := ic.1
  let c := ic.2
  let r1 :=
    if c == ' ' || c == '+' || c == '.' then r
    else
      { r with
        pastes := r.pastes ++ [(c, r.hofs, 169)],
        mirror := if i < 4 then r.mirror ++ [(c, r.hofs + 138, 269)] else r.mirror }
  let offset_change := pySum (lonChecks i c)
  let offset_change2 := pySum (lonChecks i c)
  let offset_change3 := pySum (lonChecks i c)
  { r1 with hofs := r1.hofs + offset_change + offset_change2 - offset_change3 }

/-- `draw_longitude` on an already formatted string, starting at cursor 143. -/
def drawLongitude (s : String) : Render :=
  s.data.enum.foldl lonStep { pastes := [], mirror := [], hofs := 143 }

/-- Python `s[2:8]` on the printed fraction: the displayed digit run. -/
def sliceDigits (s : String) : List Char := (s.data.drop 2).take 6

/-- `zip(str(lato)[2:8], str(lono)[2:8])`: the per-column character pairs
of `draw_coordinate_decimals`. -/
def decRows (s1 s2 : String) : List (Char × Char) :=
  (sliceDigits s1).zip (sliceDigits s2)

/-- The pastes of `draw_coordinate_decimals` on the two printed
fractions: per column `i`, the latitude digit at `(300+10i, 174)` and
`(176+10i, 267)`, the longitude digit at `(450+10i, 174)` and
`(335+10i, 269)`. -/
def drawCoordinateDecimals (s1 s2 : String) : List (Char × Int × Int) :=
  (decRows s1 s2).enum.flatMap fun p =>
    [(p.2.1, 300 + 10 * (p.1 : Int), 174), (p.2.1, 176 + 10 * (p.1 : Int), 267),
     (p.2.2, 450 + 10 * (p.1 : Int), 174), (p.2.2, 335 + 10 * (p.1 : Int), 269)]

/-- `draw_coordinate_decimals` of a `Geohashing` object:
the columns come from `str(self.gh.lato)` and `str(self.gh.lono)`. -/
def Geohashing.drawDecimals (g : Geohashing) : List (Char × Int × Int) :=
  drawCoordinateDecimals (pyStrFrac g.lato) (pyStrFrac g.lono)

/-! ## Basic facts about the embedding -/

/-- `leBytes` produces exactly `k` bytes. -/
theorem leBytes_length (k v : Nat) : (leBytes k v).length = k := by
  simp [leBytes]

/-- Every entry of `leBytes` is a byte. -/
theorem leBytes_lt (k v : Nat) : ∀ b ∈ leBytes k v, b < 256 := by
  intro b hb
  simp only [leBytes, List.mem_map, List.mem_range] at hb
  obtain ⟨i, _, rfl⟩ := hb
  exact Nat.mod_lt _ (by norm_num)

/-- An MD5 digest has 16 bytes. -/
theorem md5_length (msg : List Nat) : (md5 msg).length = 16 := by
  unfold md5
  simp [leBytes_length]

/-- Every entry of an MD5 digest is a byte. -/
theorem md5_lt (msg : List Nat) : ∀ b ∈ md5 msg, b < 256 := by
  intro b hb
  unfold md5 at hb
  simp only [List.mem_append] at hb
  rcases hb with ((h | h) | h) | h <;> exact leBytes_lt _ _ _ h

/-- Bound on the big-endian fold with a running accumulator. -/
theorem beU64_foldl_lt (bs : List Nat) (hb : ∀ b ∈ bs, b < 256) (acc : Nat) :
    bs.foldl (fun a b => 256 * a + b) acc < 256 ^ bs.length * (acc + 1) := by
  induction bs generalizing acc with
  | nil => simp
  | cons x xs ih =>
    have hx : x < 256 := hb x (List.mem_cons_self x xs)
    have h2 : ∀ b ∈ xs, b < 256 := fun b h => hb b (List.mem_cons_of_mem _ h)
    have h3 := ih h2 (256 * acc + x)
    have h4 : 256 ^ xs.length * (256 * acc + x + 1) ≤ 256 ^ (x :: xs).length * (acc + 1) := by
      simp only [List.length_cons, pow_succ]
      have : 256 * acc + x + 1 ≤ 256 * (acc + 1) := by omega
      calc 256 ^ xs.length * (256 * acc + x + 1) ≤ 256 ^ xs.length * (256 * (acc + 1)) :=
            Nat.mul_le_mul_left _ this
        _ = 256 ^ xs.length * 256 * (acc + 1) := by ring
    exact lt_of_lt_of_le h3 h4

/-- A big-endian read of bytes is bounded by `256 ^ length`. -/
theorem beU64_lt (bs : List Nat) (hb : ∀ b ∈ bs, b < 256) :
    beU64 bs < 256 ^ bs.length := by
  simpa using beU64_foldl_lt bs hb 0

/-- A digest-half fraction is nonnegative. -/
theorem fracOfBytes_nonneg (bs : List Nat) : 0 ≤ fracOfBytes bs :=
  div_nonneg (Nat.cast_nonneg _) (by positivity)

/-- A digest-half fraction of at most 8 bytes is below 1. -/
theorem fracOfBytes_lt_one (bs : List Nat) (hlen : bs.length ≤ 8)
    (hb : ∀ b ∈ bs, b < 256) : fracOfBytes bs < 1 := by
  unfold fracOfBytes
  rw [div_lt_one (by positivity)]
  have h1 : beU64 bs < 2 ^ 64 := by
    calc beU64 bs < 256 ^ bs.length := beU64_lt bs hb
      _ ≤ 256 ^ 8 := Nat.pow_le_pow_right (by norm_num) hlen
      _ = 2 ^ 64 := by norm_num
  exact_mod_cast h1

/-- The division by `2 ^ 64` agrees with `mkRat`, so the fraction of a
concrete byte list can be computed. -/
theorem fracOfBytes_eq_mkRat (bs : List Nat) :
    fracOfBytes bs = mkRat (beU64 bs) (2 ^ 64) := by
  rw [fracOfBytes, Rat.mkRat_eq_div]
  norm_num

/-- Every hex digit produced by `hexDigit` is a lowercase hex character. -/
theorem hexDigit_mem (n : Nat) : hexDigit n ∈ hexChars := by
  unfold hexDigit
  by_cases h : n < hexChars.length
  · rw [List.getD_eq_getElem _ _ h]
    exact List.getElem_mem h
  · rw [List.getD_eq_default _ _ (Nat.le_of_not_lt h)]
    decide

/-- A hex digest has twice as many characters as the byte string. -/
theorem hexOfBytes_length (bs : List Nat) :
    (hexOfBytes bs).length = 2 * bs.length := by
  show (bs.flatMap fun b => [hexDigit (b / 16), hexDigit (b % 16)]).length = 2 * bs.length
  induction bs with
  | nil => rfl
  | cons x xs ih => simp only [List.flatMap_cons, List.length_append, List.length_cons,
      List.length_nil, List.length_cons, ih]; omega

/-- Every character of a hex digest is a lowercase hex character. -/
theorem hexOfBytes_mem (bs : List Nat) : ∀ c ∈ (hexOfBytes bs).data, c ∈ hexChars := by
  intro c hc
  have : c ∈ bs.flatMap fun b => [hexDigit (b / 16), hexDigit (b % 16)] := hc
  rw [List.mem_flatMap] at this
  obtain ⟨b, _, hcb⟩ := this
  simp only [List.mem_cons, List.not_mem_nil, or_false] at hcb
  rcases hcb with rfl | rfl <;> exact hexDigit_mem _

/-- Objects with equal date and equal resolved index derive the same
seed string, digest, hex digest and fractions. -/
theorem derived_eq (g₁ g₂ : Geohashing) (hdate : g₁.date = g₂.date)
    (hdow : g₁.dowjones = g₂.dowjones) :
    g₁.inp = g₂.inp ∧ g₁.digest = g₂.digest ∧ g₁.hexdig = g₂.hexdig ∧
      g₁.lato = g₂.lato ∧ g₁.lono = g₂.lono := by
  have hinp : g₁.inp = g₂.inp := by
    unfold Geohashing.inp
    rw [hdate, hdow]
  have hdig : g₁.digest = g₂.digest := by
    unfold Geohashing.digest
    rw [hinp]
  refine ⟨hinp, hdig, ?_, ?_, ?_⟩
  · unfold Geohashing.hexdig
    rw [hdig]
  · unfold Geohashing.lato
    rw [hdig]
  · unfold Geohashing.lono
    rw [hdig]

/-- A nonzero stored index makes the `dowjones` property ignore the
fetched response. -/
theorem dowjones_fetch_irrel (g : Geohashing) (h : g.dowjones0 ≠ 0) (f : Option ℚ) :
    ({ g with fetch := f } : Geohashing).dowjones = g.dowjones := by
  unfold Geohashing.dowjones
  simp [h]


/-! ## Concrete inputs used by witnesses -/

/-- The default comic input: 2005-05-26, Dow 10458.68, the default base
coordinate (the xkcd 426 panel). -/
def gDefault : Geohashing :=
  ⟨⟨2005, 5, 26⟩, mkRat 37421542 1000000, mkRat (-122085589) 1000000,
    mkRat 1045868 100, none⟩

/-- The same seed as `gDefault` with a different base coordinate and a
different fetched response: the derivation cannot tell them apart. -/
def gOther : Geohashing :=
  ⟨⟨2005, 5, 26⟩, 0, 0, mkRat 1045868 100, some (mkRat 5 1)⟩

/-! ## The claims -/

/-- Claim C1: for every valid seed input, the derived latitude fraction
is the big-endian unsigned 64-bit integer of digest bytes 0..8 divided
by 2^64 and the longitude fraction is the same computation over bytes
8..16, where the digest is the 128-bit (MD5) hash of the formatted seed
string; both fractions are deterministic functions of the digest alone. -/
theorem C1_fractions_from_digest (g : Geohashing) :
    g.digest = md5 (strBytes g.inp) ∧
    g.digest.length = 16 ∧
    g.lato = (beU64 (g.digest.take 8) : ℚ) / 2 ^ 64 ∧
    g.lono = (beU64 ((g.digest.drop 8).take 8) : ℚ) / 2 ^ 64 ∧
    ∀ g₂ : Geohashing, g.digest = g₂.digest → g.lato = g₂.lato ∧ g.lono = g₂.lono := by
  refine ⟨rfl, md5_length _, rfl, rfl, fun g₂ h => ?_⟩
  unfold Geohashing.lato Geohashing.lono
  rw [h]
  exact ⟨rfl, rfl⟩

/-- Witness for C1: two objects with different base coordinates and
fetched responses share the digest, hence the fractions. -/
theorem C1_witness :
    gDefault.digest = gOther.digest ∧
    gDefault.lato = gOther.lato ∧ gDefault.lono = gOther.lono :=
  ⟨rfl, (C1_fractions_from_digest gDefault).2.2.2.2 gOther rfl⟩

/-- Claim C2 is wrong about the code: `{:4d}` pads the year with spaces,
not zeros.  Year 999 forms a valid `datetime.date`, and its seed string
is " 999-01-01-1.00", not the zero-padded "0999-01-01-1.00". -/
theorem C2_counterexample :
    seedString 999 1 1 (mkRat 1 1) = " 999-01-01-1.00" ∧
    seedString 999 1 1 (mkRat 1 1) ≠ "0999-01-01-1.00" := by decide

/-- Claim C2 (amended): the seed string is the year right-aligned in a
width-4 space-padded field (so 4 digits exactly when the year has 4
digits), a hyphen, the 2-digit zero-padded month, a hyphen, the 2-digit
zero-padded day, a hyphen, and the index value with exactly 2 digits
after the decimal point. -/
theorem C2_seed_string_format (y m d : Nat) (dj : ℚ) (hm : m < 100) (hd : d < 100) :
    seedString y m d dj =
      padLeft 4 ' ' (toString y) ++ "-" ++ format0D 2 m ++ "-" ++ format0D 2 d ++
        "-" ++ formatF 2 dj ∧
    4 ≤ (formatD 4 y).length ∧
    (format0D 2 m).length = 2 ∧
    (format0D 2 d).length = 2 ∧
    formatF 2 dj =
      (if dj < 0 then "-" else "") ++ toString (roundDecimals 2 dj / 100) ++ "." ++
        format0D 2 (roundDecimals 2 dj % 100) ∧
    (format0D 2 (roundDecimals 2 dj % 100)).length = 2 := by
  have hlen : ∀ n : Nat, n < 100 → (toString n).length ≤ 2 := by decide
  have hpad : ∀ (w : Nat) (f : Char) (s : String),
      (padLeft w f s).length = (w - s.length) + s.length := by
    intro w f s
    show (String.mk (List.replicate (w - s.length) f) ++ s).length = _
    rw [String.length_append]
    show (List.replicate (w - s.length) f).length + s.length = _
    rw [List.length_replicate]
  refine ⟨rfl, ?_, ?_, ?_, rfl, ?_⟩
  · show 4 ≤ (padLeft 4 ' ' (toString y)).length
    rw [hpad]
    omega
  · show (padLeft 2 '0' (toString m)).length = 2
    rw [hpad]
    have := hlen m hm
    omega
  · show (padLeft 2 '0' (toString d)).length = 2
    rw [hpad]
    have := hlen d hd
    omega
  · show (padLeft 2 '0' (toString (roundDecimals 2 dj % 100))).length = 2
    rw [hpad]
    have := hlen (roundDecimals 2 dj % 100) (Nat.mod_lt _ (by norm_num))
    omega

/-- Witness for C2 (amended), at the default seed 2005-05-26-10458.68. -/
theorem C2_witness :
    seedString 2005 5 26 (mkRat 1045868 100) =
      padLeft 4 ' ' (toString 2005) ++ "-" ++ format0D 2 5 ++ "-" ++ format0D 2 26 ++
        "-" ++ formatF 2 (mkRat 1045868 100) ∧
    (format0D 2 (roundDecimals 2 (mkRat 1045868 100) % 100)).length = 2 :=
  ⟨(C2_seed_string_format 2005 5 26 (mkRat 1045868 100) (by decide) (by decide)).1,
   (C2_seed_string_format 2005 5 26 (mkRat 1045868 100) (by decide) (by decide)).2.2.2.2.2⟩

/-- Claim C3: for every possible 16-byte digest both fractions lie in
[0, 1); an all-zero 8-byte half yields exactly 0 and an all-ones half a
value strictly below 1. -/
theorem C3_fraction_range (ds : List Nat) (h16 : ds.length = 16)
    (hb : ∀ b ∈ ds, b < 256) :
    (0 ≤ fracOfBytes (ds.take 8) ∧ fracOfBytes (ds.take 8) < 1) ∧
    (0 ≤ fracOfBytes ((ds.drop 8).take 8) ∧ fracOfBytes ((ds.drop 8).take 8) < 1) ∧
    fracOfBytes (List.replicate 8 0) = 0 ∧
    fracOfBytes (List.replicate 8 255) < 1 := by
  refine ⟨⟨fracOfBytes_nonneg _, ?_⟩, ⟨fracOfBytes_nonneg _, ?_⟩, ?_, ?_⟩
  · exact fracOfBytes_lt_one _ (by simp) fun b h => hb b (List.take_subset _ _ h)
  · exact fracOfBytes_lt_one _ (by simp)
      fun b h => hb b (List.drop_subset _ _ (List.take_subset _ _ h))
  · rw [fracOfBytes_eq_mkRat]
    decide
  · rw [fracOfBytes_eq_mkRat]
    decide

/-- Witness for C3, at the digest of the default seed. -/
theorem C3_witness :
    (0 ≤ fracOfBytes (gDefault.digest.take 8) ∧ fracOfBytes (gDefault.digest.take 8) < 1) ∧
    (0 ≤ fracOfBytes ((gDefault.digest.drop 8).take 8) ∧
      fracOfBytes ((gDefault.digest.drop 8).take 8) < 1) ∧
    fracOfBytes (List.replicate 8 0) = 0 ∧
    fracOfBytes (List.replicate 8 255) < 1 :=
  C3_fraction_range gDefault.digest (md5_length _) (md5_lt _)

/-! ## Rendering invariants -/

/-- One latitude step never pastes a space, plus or dot, at either the
primary or the mirrored position. -/
theorem latStep_glyphs (r : Render) (ic : Nat × Char)
    (hp : ∀ p ∈ r.pastes, p.1 ≠ ' ' ∧ p.1 ≠ '+' ∧ p.1 ≠ '.')
    (hm : ∀ p ∈ r.mirror, p.1 ≠ ' ' ∧ p.1 ≠ '+' ∧ p.1 ≠ '.') :
    (∀ p ∈ (latStep r ic).pastes, p.1 ≠ ' ' ∧ p.1 ≠ '+' ∧ p.1 ≠ '.') ∧
    (∀ p ∈ (latStep r ic).mirror, p.1 ≠ ' ' ∧ p.1 ≠ '+' ∧ p.1 ≠ '.') := by
  cases hcond : (ic.2 == ' ' || ic.2 == '+' || ic.2 == '.') with
  | true =>
    simp only [latStep, hcond, if_true]
    exact ⟨hp, hm⟩
  | false =>
    have hc : ic.2 ≠ ' ' ∧ ic.2 ≠ '+' ∧ ic.2 ≠ '.' := by
      simp only [Bool.or_eq_false_iff, beq_eq_false_iff_ne, ne_eq] at hcond
      exact ⟨hcond.1.1, hcond.1.2, hcond.2⟩
    constructor
    · intro p hp2
      simp only [latStep, hcond, Bool.false_eq_true, if_false] at hp2
      rcases List.mem_append.1 hp2 with h1 | h1
      · exact hp p h1
      · simp only [List.mem_singleton] at h1
        subst h1
        exact hc
    · intro p hp2
      simp only [latStep, hcond, Bool.false_eq_true, if_false] at hp2
      by_cases h3 : ic.1 < 3
      · simp only [h3, if_true] at hp2
        rcases List.mem_append.1 hp2 with h1 | h1
        · exact hm p h1
        · simp only [List.mem_singleton] at h1
          subst h1
          exact hc
      · simp only [h3, if_false] at hp2
        exact hm p hp2

/-- One longitude step never pastes a space, plus or dot, at either the
primary or the mirrored position. -/
theorem lonStep_glyphs (r : Render) (ic : Nat × Char)
    (hp : ∀ p ∈ r.pastes, p.1 ≠ ' ' ∧ p.1 ≠ '+' ∧ p.1 ≠ '.')
    (hm : ∀ p ∈ r.mirror, p.1 ≠ ' ' ∧ p.1 ≠ '+' ∧ p.1 ≠ '.') :
    (∀ p ∈ (lonStep r ic).pastes, p.1 ≠ ' ' ∧ p.1 ≠ '+' ∧ p.1 ≠ '.') ∧
    (∀ p ∈ (lonStep r ic).mirror, p.1 ≠ ' ' ∧ p.1 ≠ '+' ∧ p.1 ≠ '.') := by
  cases hcond : (ic.2 == ' ' || ic.2 == '+' || ic.2 == '.') with
  | true =>
    simp only [lonStep, hcond, if_true]
    exact ⟨hp, hm⟩
  | false =>
    have hc : ic.2 ≠ ' ' ∧ ic.2 ≠ '+' ∧ ic.2 ≠ '.' := by
      simp only [Bool.or_eq_false_iff, beq_eq_false_iff_ne, ne_eq] at hcond
      exact ⟨hcond.1.1, hcond.1.2, hcond.2⟩
    constructor
    · intro p hp2
      simp only [lonStep, hcond, Bool.false_eq_true, if_false] at hp2
      rcases List.mem_append.1 hp2 with h1 | h1
      · exact hp p h1
      · simp only [List.mem_singleton] at h1
        subst h1
        exact hc
    · intro p hp2
      simp only [lonStep, hcond, Bool.false_eq_true, if_false] at hp2
      by_cases h3 : ic.1 < 4
      · simp only [h3, if_true] at hp2
        rcases List.mem_append.1 hp2 with h1 | h1
        · exact hm p h1
        · simp only [List.mem_singleton] at h1
          subst h1
          exact hc
      · simp only [h3, if_false] at hp2
        exact hm p hp2

/-- The latitude loop preserves the no-formatting-glyph invariant. -/
theorem foldl_latStep_glyphs (l : List (Nat × Char)) (r : Render)
    (hp : ∀ p ∈ r.pastes, p.1 ≠ ' ' ∧ p.1 ≠ '+' ∧ p.1 ≠ '.')
    (hm : ∀ p ∈ r.mirror, p.1 ≠ ' ' ∧ p.1 ≠ '+' ∧ p.1 ≠ '.') :
    (∀ p ∈ (l.foldl latStep r).pastes, p.1 ≠ ' ' ∧ p.1 ≠ '+' ∧ p.1 ≠ '.') ∧
    (∀ p ∈ (l.foldl latStep r).mirror, p.1 ≠ ' ' ∧ p.1 ≠ '+' ∧ p.1 ≠ '.') := by
  induction l generalizing r with
  | nil => exact ⟨hp, hm⟩
  | cons x xs ih =>
    rw [List.foldl_cons]
    have h := latStep_glyphs r x hp hm
    exact ih _ h.1 h.2

/-- The longitude loop preserves the no-formatting-glyph invariant. -/
theorem foldl_lonStep_glyphs (l : List (Nat × Char)) (r : Render)
    (hp : ∀ p ∈ r.pastes, p.1 ≠ ' ' ∧ p.1 ≠ '+' ∧ p.1 ≠ '.')
    (hm : ∀ p ∈ r.mirror, p.1 ≠ ' ' ∧ p.1 ≠ '+' ∧ p.1 ≠ '.') :
    (∀ p ∈ (l.foldl lonStep r).pastes, p.1 ≠ ' ' ∧ p.1 ≠ '+' ∧ p.1 ≠ '.') ∧
    (∀ p ∈ (l.foldl lonStep r).mirror, p.1 ≠ ' ' ∧ p.1 ≠ '+' ∧ p.1 ≠ '.') := by
  induction l generalizing r with
  | nil => exact ⟨hp, hm⟩
  | cons x xs ih =>
    rw [List.foldl_cons]
    have h := lonStep_glyphs r x hp hm
    exact ih _ h.1 h.2

/-- Claim C4 is wrong about the code: the paste filter is `c not in ' +.'`,
so the minus sign IS pasted (its glyph is the dedicated `m.png` asset).
At the default longitude -122.085589 the formatted string starts with
'-', and a '-' glyph is pasted at the primary position (143, 169) and at
the mirrored position (281, 269). -/
theorem C4_counterexample :
    formatPlusF 11 6 (mkRat (-122085589) 1000000) = "-122.085589" ∧
    ('-', 143, 169) ∈ (drawLongitude "-122.085589").pastes ∧
    ('-', 281, 269) ∈ (drawLongitude "-122.085589").mirror := by decide

/-- Claim C4 (amended): the latitude and longitude renderers never paste
a glyph for a space, a plus sign or a decimal point (the minus sign,
unlike the claim's list, is pasted); the formatting characters still
shift the cursor, by 8, 9 and 12 pixels for ' ', '+', '.' in the
latitude field and by 8, 8 and 13 in the longitude field. -/
theorem C4_no_formatting_glyphs (s : String) (p : Char × Int × Int)
    (h : p ∈ (drawLatitude s).pastes ++ (drawLatitude s).mirror ++
      (drawLongitude s).pastes ++ (drawLongitude s).mirror) :
    (p.1 ≠ ' ' ∧ p.1 ≠ '+' ∧ p.1 ≠ '.') ∧
    ∀ i : Nat, pySum (latChecks i ' ') = 8 ∧ pySum (latChecks i '+') = 9 ∧
      pySum (latChecks i '.') = 12 ∧ pySum (lonChecks i ' ') = 8 ∧
      pySum (lonChecks i '+') = 8 ∧ pySum (lonChecks i '.') = 13 := by
  constructor
  · have hlat := foldl_latStep_glyphs s.data.enum
      { pastes := [], mirror := [], hofs := 25 } (by simp) (by simp)
    have hlon := foldl_lonStep_glyphs s.data.enum
      { pastes := [], mirror := [], hofs := 143 } (by simp) (by simp)
    rcases List.mem_append.1 h with h1 | h1
    · rcases List.mem_append.1 h1 with h2 | h2
      · rcases List.mem_append.1 h2 with h3 | h3
        · exact hlat.1 p h3
        · exact hlat.2 p h3
      · exact hlon.1 p h2
    · exact hlon.2 p h1
  · intro i
    refine ⟨?_, ?_, ?_, ?_, ?_, ?_⟩ <;>
      simp [pySum, latChecks, lonChecks]

/-- Witness for C4 (amended): a digit paste of the latitude field. -/
theorem C4_witness :
    (('3', 34, 168) : Char × Int × Int).1 ≠ ' ' ∧
    (('3', 34, 168) : Char × Int × Int).1 ≠ '+' ∧
    (('3', 34, 168) : Char × Int × Int).1 ≠ '.' :=
  (C4_no_formatting_glyphs "+37.421542" ('3', 34, 168) (by decide)).1

/-- Claim C5 is wrong about the code: the mirror condition is on the
string index (`i < 3`), and for latitude 37.421542 the formatted string
"+37.421542" spends index 0 on the unpasted '+', so only the first 2
pasted glyphs are mirrored, not 3. -/
theorem C5_counterexample :
    formatPlusF 10 6 (mkRat 37421542 1000000) = "+37.421542" ∧
    (drawLatitude "+37.421542").pastes.length = 8 ∧
    (drawLatitude "+37.421542").mirror.length = 2 ∧
    ¬(drawLatitude "+37.421542").mirror.length = 3 := by decide

/-- Claim C5 (amended): for latitude value 37.421542 exactly 8 glyphs
are pasted at the primary row (digits only), and exactly the first 2 of
those are pasted a second time at the mirrored position
(cursor+110, 266): the mirror window is string index < 3 and index 0
holds the unpasted sign. -/
theorem C5_mirrored_glyphs :
    formatPlusF 10 6 (mkRat 37421542 1000000) = "+37.421542" ∧
    (drawLatitude "+37.421542").pastes.length = 8 ∧
    (drawLatitude "+37.421542").mirror =
      ((drawLatitude "+37.421542").pastes.take 2).map
        (fun p => (p.1, p.2.1 + 110, (266 : Int))) := by decide

/-- Claim C6: in the longitude renderer the combined cursor delta
`d1 + d2 - d3` from three identical evaluations of the kerning rules
equals the single evaluation `d1`, so each step advances the cursor by
exactly one evaluation of the rules. -/
theorem C6_kerning_delta (i : Nat) (c : Char) (r : Render) :
    pySum (lonChecks i c) + pySum (lonChecks i c) - pySum (lonChecks i c) =
      pySum (lonChecks i c) ∧
    (lonStep r (i, c)).hofs = r.hofs + pySum (lonChecks i c) := by
  constructor
  · omega
  · cases hcond : (c == ' ' || c == '+' || c == '.') with
    | true =>
      simp only [lonStep, hcond, if_true]
      omega
    | false =>
      simp only [lonStep, hcond, Bool.false_eq_true, if_false]
      omega

/-- The flatMap of a four-element-producing function has four entries
per element. -/
theorem length_flatMap_four {α β : Type _} (l : List α) (f : α → List β)
    (h : ∀ a, (f a).length = 4) : (l.flatMap f).length = 4 * l.length := by
  induction l with
  | nil => rfl
  | cons x xs ih =>
    simp only [List.flatMap_cons, List.length_append, ih, h, List.length_cons]
    omega

/-- Claim C7: the coordinate-decimals renderer displays the first 6
digits after the decimal point of each fraction (for the fraction
0.1234567 the displayed run is "123456"), and column `i` pastes the
latitude digit at (300+10i, 174) and (176+10i, 267) and the longitude
digit at (450+10i, 174) and (335+10i, 269). -/
theorem C7_coordinate_decimals (s1 s2 : String) (i : Nat)
    (hi : i < (decRows s1 s2).length) :
    sliceDigits (pyStrFrac (mkRat 1234567 10000000)) = "123456".data ∧
    ((((decRows s1 s2).getD i (' ', ' ')).1, 300 + 10 * (i : Int), (174 : Int)) ∈
      drawCoordinateDecimals s1 s2) ∧
    ((((decRows s1 s2).getD i (' ', ' ')).1, 176 + 10 * (i : Int), (267 : Int)) ∈
      drawCoordinateDecimals s1 s2) ∧
    ((((decRows s1 s2).getD i (' ', ' ')).2, 450 + 10 * (i : Int), (174 : Int)) ∈
      drawCoordinateDecimals s1 s2) ∧
    ((((decRows s1 s2).getD i (' ', ' ')).2, 335 + 10 * (i : Int), (269 : Int)) ∈
      drawCoordinateDecimals s1 s2) := by
  have hmem : (i, (decRows s1 s2).getD i (' ', ' ')) ∈ (decRows s1 s2).enum := by
    have hlen : i < (decRows s1 s2).enum.length := by
      rw [List.enum_length]
      exact hi
    have h := List.getElem_mem hlen
    rwa [List.getElem_enum, ← List.getD_eq_getElem _ (' ', ' ') hi] at h
  refine ⟨by decide, ?_, ?_, ?_, ?_⟩ <;>
  · unfold drawCoordinateDecimals
    exact List.mem_flatMap.2 ⟨_, hmem, by simp⟩

/-- Witness for C7, at the fractions of the claim's example and of the
default seed, column 0. -/
theorem C7_witness :
    sliceDigits (pyStrFrac (mkRat 1234567 10000000)) = "123456".data ∧
    ((((decRows "0.1234567" "0.857713267707").getD 0 (' ', ' ')).1,
        300 + 10 * ((0 : Nat) : Int), (174 : Int)) ∈
      drawCoordinateDecimals "0.1234567" "0.857713267707") ∧
    ((((decRows "0.1234567" "0.857713267707").getD 0 (' ', ' ')).1,
        176 + 10 * ((0 : Nat) : Int), (267 : Int)) ∈
      drawCoordinateDecimals "0.1234567" "0.857713267707") ∧
    ((((decRows "0.1234567" "0.857713267707").getD 0 (' ', ' ')).2,
        450 + 10 * ((0 : Nat) : Int), (174 : Int)) ∈
      drawCoordinateDecimals "0.1234567" "0.857713267707") ∧
    ((((decRows "0.1234567" "0.857713267707").getD 0 (' ', ' ')).2,
        335 + 10 * ((0 : Nat) : Int), (269 : Int)) ∈
      drawCoordinateDecimals "0.1234567" "0.857713267707") :=
  C7_coordinate_decimals "0.1234567" "0.857713267707" 0 (by decide)

/-- A second object with the seed of `gDefault`, its fetch response, and
a different base coordinate. -/
def gSameFetch : Geohashing :=
  ⟨⟨2005, 5, 26⟩, 0, 0, mkRat 1045868 100, none⟩

/-- Claim C8: the derivation is deterministic — equal seed inputs give
identical hexDigest, latFraction and lonFraction — and the hex digest is
always exactly 32 lowercase hexadecimal characters. -/
theorem C8_determinism_and_format (g₁ g₂ : Geohashing)
    (hdate : g₁.date = g₂.date) (hdj : g₁.dowjones0 = g₂.dowjones0)
    (hf : g₁.fetch = g₂.fetch) :
    (g₁.hexdig = g₂.hexdig ∧ g₁.lato = g₂.lato ∧ g₁.lono = g₂.lono) ∧
    g₁.hexdig.length = 32 ∧
    ∀ c ∈ g₁.hexdig.data, c ∈ hexChars := by
  have hdow : g₁.dowjones = g₂.dowjones := by
    unfold Geohashing.dowjones
    rw [hdj, hf]
  have h := derived_eq g₁ g₂ hdate hdow
  refine ⟨⟨h.2.2.1, h.2.2.2.1, h.2.2.2.2⟩, ?_, hexOfBytes_mem _⟩
  have h16 : g₁.digest.length = 16 := md5_length _
  show (hexOfBytes g₁.digest).length = 32
  rw [hexOfBytes_length, h16]

/-- Witness for C8: the default seed derived from two distinct base
coordinates. -/
theorem C8_witness :
    (gDefault.hexdig = gSameFetch.hexdig ∧ gDefault.lato = gSameFetch.lato ∧
      gDefault.lono = gSameFetch.lono) ∧
    gDefault.hexdig.length = 32 ∧
    ∀ c ∈ gDefault.hexdig.data, c ∈ hexChars :=
  C8_determinism_and_format gDefault gSameFetch rfl rfl rfl

/-- Claim C9: a nonzero constructor-supplied index value is returned by
the `dowjones` property unchanged, with the fetch branch unreachable (the
derived values do not depend on the fetched response), while a supplied
0.0 is treated as missing and resolves from the fetch: the fetched value
itself, or the -1.0 sentinel on a 404. -/
theorem C9_dowjones_passthrough (g : Geohashing) (h : g.dowjones0 ≠ 0) :
    g.dowjones = g.dowjones0 ∧
    (∀ f : Option ℚ, ({ g with fetch := f } : Geohashing).dowjones = g.dowjones0) ∧
    (∀ f : Option ℚ, ({ g with fetch := f } : Geohashing).hexdig = g.hexdig ∧
      ({ g with fetch := f } : Geohashing).lato = g.lato ∧
      ({ g with fetch := f } : Geohashing).lono = g.lono) ∧
    (∀ v : ℚ, ({ g with dowjones0 := 0, fetch := some v } : Geohashing).dowjones = v) ∧
    ({ g with dowjones0 := 0, fetch := none } : Geohashing).dowjones = -1 := by
  have hmk : ∀ (d : PyDate) (la lo dj : ℚ) (f : Option ℚ),
      (Geohashing.mk d la lo dj f).dowjones =
        if dj = 0 then (match f with | none => (-1 : ℚ) | some v => v) else dj :=
    fun _ _ _ _ _ => rfl
  have h1 : g.dowjones = g.dowjones0 := by
    unfold Geohashing.dowjones
    simp [h]
  refine ⟨h1, fun f => ?_, fun f => ?_, fun v => ?_, ?_⟩
  · rw [dowjones_fetch_irrel g h f, h1]
  · exact (derived_eq ({ g with fetch := f } : Geohashing) g rfl
      (dowjones_fetch_irrel g h f)).2.2
  · rw [hmk, if_pos rfl]
  · rw [hmk, if_pos rfl]

/-- Witness for C9: the default object carries 10458.68, which is
returned as-is; a zeroed copy resolves from the fetch. -/
theorem C9_witness :
    gDefault.dowjones = gDefault.dowjones0 ∧
    ({ gDefault with dowjones0 := 0, fetch := some (mkRat 5 1) } : Geohashing).dowjones =
      mkRat 5 1 ∧
    ({ gDefault with dowjones0 := 0, fetch := none } : Geohashing).dowjones = -1 :=
  ⟨(C9_dowjones_passthrough gDefault (by decide)).1,
   (C9_dowjones_passthrough gDefault (by decide)).2.2.2.1 (mkRat 5 1),
   (C9_dowjones_passthrough gDefault (by decide)).2.2.2.2⟩

/-- Claim C10: the number of columns the coordinate-decimals renderer
draws is the minimum of the lengths of the two extracted digit runs
(characters 2..8 of the printed fractions), four pastes per column, so
a fraction printing with fewer than 6 digits after the decimal point
forces strictly fewer than 6 columns for both coordinates. -/
theorem C10_column_count (s1 s2 : String) :
    (decRows s1 s2).length = min (sliceDigits s1).length (sliceDigits s2).length ∧
    (drawCoordinateDecimals s1 s2).length = 4 * (decRows s1 s2).length ∧
    ∀ t : String, (s1 = "0." ++ t ∧ t.length < 6) ∨ (s2 = "0." ++ t ∧ t.length < 6) →
      (decRows s1 s2).length < 6 := by
  have hzip : (decRows s1 s2).length =
      min (sliceDigits s1).length (sliceDigits s2).length := by
    unfold decRows
    exact List.length_zip _ _
  refine ⟨hzip, ?_, ?_⟩
  · calc (drawCoordinateDecimals s1 s2).length
        = 4 * ((decRows s1 s2).enum).length := length_flatMap_four _ _ fun a => rfl
      _ = 4 * (decRows s1 s2).length := by rw [List.enum_length]
  · have key : ∀ (s t : String), s = "0." ++ t → (sliceDigits s).length ≤ t.length := by
      intro s t hst
      subst hst
      unfold sliceDigits
      rw [String.data_append, List.length_take, List.length_drop, List.length_append]
      have h2 : ("0." : String).data.length = 2 := rfl
      have h3 : t.length = t.data.length := rfl
      omega
    intro t ht
    rcases ht with ⟨hs, hlt⟩ | ⟨hs, hlt⟩
    · have := key s1 t hs
      omega
    · have := key s2 t hs
      omega

/-- Witness for C10: the fraction 0.0 prints as "0.0", a single digit
after the decimal point, so fewer than 6 columns are drawn. -/
theorem C10_witness :
    pyStrFrac 0 = "0." ++ "0" ∧
    (decRows (pyStrFrac 0) "0.857713267707").length < 6 :=
  ⟨by decide,
   (C10_column_count (pyStrFrac 0) "0.857713267707").2.2 "0"
     (Or.inl ⟨by decide, by decide⟩)⟩
